import Mathlib

/-!
Verification development for the rune-caster text-processing toolkit.

The definitions below are a shallow embedding of the C++ sources:
codepoints (`char32_t`) are `Nat`, byte strings (`std::string`) are
`List Nat` of byte values, UTF-16 unit strings (`std::u16string`) are
`List Nat` of 16-bit unit values, and functions that throw
`std::invalid_argument` return `Except String` (the error message) or
`Option`.  Each definition names the source entity it embeds.
-/

namespace RuneCaster

/-- `language::Code` from include/rune_caster/language.hpp.
The enumerators appear in the source order, which fixes the underlying
values `Unknown = 0, Korean = 1, ...` used by `std::map` ordering. -/
inductive Code where
  | Unknown | Korean | English | Japanese | Chinese | Arabic | Russian
  | Spanish | French | German | Italian | Portuguese | Dutch | Swedish
  | Norwegian | Danish | Finnish | Polish | Czech | Hungarian | Turkish
  | Hebrew | Thai | Vietnamese | Indonesian | Malay | Hindi | Bengali
  | Tamil | Telugu | Gujarati | Marathi | Punjabi | Urdu | Persian
  | Pashto | Kurdish | Max
deriving DecidableEq, Fintype

/-- All `language::Code` values in ascending underlying-value order, as a
`std::map<language::Code, size_t>` iterates over its keys. -/
def allCodes : List Code :=
  [.Unknown, .Korean, .English, .Japanese, .Chinese, .Arabic, .Russian,
   .Spanish, .French, .German, .Italian, .Portuguese, .Dutch, .Swedish,
   .Norwegian, .Danish, .Finnish, .Polish, .Czech, .Hungarian, .Turkish,
   .Hebrew, .Thai, .Vietnamese, .Indonesian, .Malay, .Hindi, .Bengali,
   .Tamil, .Telugu, .Gujarati, .Marathi, .Punjabi, .Urdu, .Persian,
   .Pashto, .Kurdish, .Max]

/-- `unicode::Script` from include/rune_caster/unicode.hpp.  Note the
enumeration has no `Devanagari` member. -/
inductive Script where
  | Unknown | Latin | Hangul | Hiragana | Katakana | Han | Arabic
  | Cyrillic | Greek | Hebrew
deriving DecidableEq, Fintype

/-- `unicode::Category` from include/rune_caster/unicode.hpp. -/
inductive Category where
  | Unknown | Letter | Mark | Number | Punctuation | Symbol | Separator
  | Other
deriving DecidableEq

/-- `unicode::NormalizationForm` from include/rune_caster/unicode.hpp. -/
inductive NormalizationForm where
  | NFC | NFD | NFKC | NFKD
deriving DecidableEq

/-- `CaseConverter::CaseType` from include/rune_caster/spell.hpp. -/
inductive CaseType where
  | Lower | Upper | Title
deriving DecidableEq

namespace unicode

/-- `unicode::is_latin` (unicode.hpp). -/
def is_latin (cp : Nat) : Bool :=
  (0x0041 ≤ cp && cp ≤ 0x005A) ||
  (0x0061 ≤ cp && cp ≤ 0x007A) ||
  (0x00C0 ≤ cp && cp ≤ 0x00FF)

/-- `unicode::is_hangul` (unicode.hpp). -/
def is_hangul (cp : Nat) : Bool :=
  (0x1100 ≤ cp && cp ≤ 0x11FF) ||
  (0x3130 ≤ cp && cp ≤ 0x318F) ||
  (0xAC00 ≤ cp && cp ≤ 0xD7AF)

/-- `unicode::is_hiragana` (unicode.hpp). -/
def is_hiragana (cp : Nat) : Bool :=
  0x3040 ≤ cp && cp ≤ 0x309F

/-- `unicode::is_katakana` (unicode.hpp). -/
def is_katakana (cp : Nat) : Bool :=
  0x30A0 ≤ cp && cp ≤ 0x30FF

/-- `unicode::is_kanji` (unicode.hpp). -/
def is_kanji (cp : Nat) : Bool :=
  (0x4E00 ≤ cp && cp ≤ 0x9FFF) ||
  (0x3400 ≤ cp && cp ≤ 0x4DBF)

/-- `unicode::is_whitespace` (unicode.hpp): space, tab, newline, carriage
return, vertical tab, form feed, and the non-breaking space U+00A0. -/
def is_whitespace (cp : Nat) : Bool :=
  cp == 0x20 || cp == 0x09 || cp == 0x0A || cp == 0x0D ||
  cp == 0x0B || cp == 0x0C || cp == 0x00A0

/-- `unicode::is_letter` (unicode.hpp). -/
def is_letter (cp : Nat) : Bool :=
  is_latin cp || is_hangul cp || is_hiragana cp || is_katakana cp || is_kanji cp

/-- `unicode::is_digit` (unicode.hpp). -/
def is_digit (cp : Nat) : Bool :=
  0x30 ≤ cp && cp ≤ 0x39

/-- `unicode::is_punctuation` (unicode.hpp). -/
def is_punctuation (cp : Nat) : Bool :=
  (0x0021 ≤ cp && cp ≤ 0x002F) ||
  (0x003A ≤ cp && cp ≤ 0x0040) ||
  (0x005B ≤ cp && cp ≤ 0x0060) ||
  (0x007B ≤ cp && cp ≤ 0x007E)

/-- `unicode::get_category` (unicode.hpp). -/
def get_category (cp : Nat) : Category :=
  if is_letter cp then .Letter
  else if is_digit cp then .Number
  else if is_punctuation cp then .Punctuation
  else if is_whitespace cp then .Separator
  else .Unknown

/-- `unicode::get_script` (unicode.hpp): only `Latin`, `Hangul`,
`Hiragana`, `Katakana`, `Han` or `Unknown` are ever returned. -/
def get_script (cp : Nat) : Script :=
  if is_latin cp then .Latin
  else if is_hangul cp then .Hangul
  else if is_hiragana cp then .Hiragana
  else if is_katakana cp then .Katakana
  else if is_kanji cp then .Han
  else .Unknown

end unicode

/-- `Rune` (include/rune_caster/rune.hpp): a codepoint with a language
hint and a phoneme string (phoneme bytes modelled as `List Nat`). -/
structure Rune where
  cp : Nat
  lang : Code
  phoneme : List Nat
deriving DecidableEq

/-- `Rune::detect_language` as defined in src/rune/rune.cpp
(lines 298-354): ASCII letters map to English and ASCII non-letters to
Unknown before any block-range checks. -/
def Rune.detect_language (cp : Nat) : Code :=
  if cp ≤ 0x7F then
    (if (0x41 ≤ cp && cp ≤ 0x5A) || (0x61 ≤ cp && cp ≤ 0x7A) then .English
     else .Unknown)
  else if (0x1100 ≤ cp && cp ≤ 0x11FF) || (0x3130 ≤ cp && cp ≤ 0x318F) ||
          (0xAC00 ≤ cp && cp ≤ 0xD7AF) then .Korean
  else if (0x3040 ≤ cp && cp ≤ 0x309F) || (0x30A0 ≤ cp && cp ≤ 0x30FF) ||
          (0x31F0 ≤ cp && cp ≤ 0x31FF) then .Japanese
  else if (0x4E00 ≤ cp && cp ≤ 0x9FFF) || (0x3400 ≤ cp && cp ≤ 0x4DBF) then .Chinese
  else if (0x0080 ≤ cp && cp ≤ 0x024F) || (0x1E00 ≤ cp && cp ≤ 0x1EFF) then .English
  else if 0x0400 ≤ cp && cp ≤ 0x04FF then .Russian
  else if 0x0600 ≤ cp && cp ≤ 0x06FF then .Arabic
  else if 0x0590 ≤ cp && cp ≤ 0x05FF then .Hebrew
  else if 0x0E00 ≤ cp && cp ≤ 0x0E7F then .Thai
  else .Unknown

/-- The competing inline `Rune::detect_language` defined in
include/rune_caster/rune.hpp (lines 285-314).  Its trailing comment
asserts the inline definitions "will be identical" to the rune.cpp
ones, but this version has no ASCII-letter check: after the CJK ranges
it maps every codepoint `≤ 0x024F` (including ASCII punctuation) to
English, and it lacks the Cyrillic/Arabic/Hebrew/Thai ranges. -/
def detect_language_hpp (cp : Nat) : Code :=
  if (0x1100 ≤ cp && cp ≤ 0x11FF) || (0x3130 ≤ cp && cp ≤ 0x318F) ||
     (0xAC00 ≤ cp && cp ≤ 0xD7AF) then .Korean
  else if (0x3040 ≤ cp && cp ≤ 0x309F) || (0x30A0 ≤ cp && cp ≤ 0x30FF) ||
          (0x31F0 ≤ cp && cp ≤ 0x31FF) then .Japanese
  else if (0x4E00 ≤ cp && cp ≤ 0x9FFF) || (0x3400 ≤ cp && cp ≤ 0x4DBF) ||
          (0x20000 ≤ cp && cp ≤ 0x2A6DF) then .Chinese
  else if cp ≤ 0x024F || (0x1E00 ≤ cp && cp ≤ 0x1EFF) then .English
  else .Unknown

/-- `Rune::Rune(char32_t)` (rune.cpp): auto-detects the language hint
and leaves the phoneme empty.  We use the rune.cpp `detect_language`,
the variant defined in the same translation unit as the factories. -/
def Rune.ofCp (cp : Nat) : Rune :=
  ⟨cp, Rune.detect_language cp, []⟩

/-- `Rune::Rune(char32_t, language::Code)` (rune.cpp). -/
def Rune.ofCpLang (cp : Nat) (lang : Code) : Rune :=
  ⟨cp, lang, []⟩

/-- `Rune::from_utf8(std::string_view)` (rune.cpp lines 208-260).
Throws (`Except.error`) on an empty input, an invalid leading byte,
fewer bytes than the leading byte declares, or a continuation byte not
of the form `10xxxxxx`.  It performs no overlong, surrogate or
maximum-scalar validation, and ignores bytes beyond the first
character. -/
def Rune.from_utf8 (bs : List Nat) : Except String Rune :=
  match bs with
  | [] => .error "Empty UTF-8 string"
  | b0 :: rest =>
    if b0 ≤ 0x7F then
      .ok (Rune.ofCp b0)
    else if b0 &&& 0xE0 == 0xC0 then
      match rest with
      | [] => .error "Invalid UTF-8 sequence"
      | b1 :: _ =>
        if b1 &&& 0xC0 == 0x80 then
          .ok (Rune.ofCp (((b0 &&& 0x1F) <<< 6) ||| (b1 &&& 0x3F)))
        else .error "Invalid UTF-8 sequence"
    else if b0 &&& 0xF0 == 0xE0 then
      match rest with
      | b1 :: b2 :: _ =>
        if b1 &&& 0xC0 == 0x80 && b2 &&& 0xC0 == 0x80 then
          .ok (Rune.ofCp (((b0 &&& 0x0F) <<< 12) ||| ((b1 &&& 0x3F) <<< 6) ||| (b2 &&& 0x3F)))
        else .error "Invalid UTF-8 sequence"
      | _ => .error "Invalid UTF-8 sequence"
    else if b0 &&& 0xF8 == 0xF0 then
      match rest with
      | b1 :: b2 :: b3 :: _ =>
        if b1 &&& 0xC0 == 0x80 && b2 &&& 0xC0 == 0x80 && b3 &&& 0xC0 == 0x80 then
          .ok (Rune.ofCp (((b0 &&& 0x07) <<< 18) ||| ((b1 &&& 0x3F) <<< 12) |||
                          ((b2 &&& 0x3F) <<< 6) ||| (b3 &&& 0x3F)))
        else .error "Invalid UTF-8 sequence"
      | _ => .error "Invalid UTF-8 sequence"
    else .error "Invalid UTF-8 sequence"

/-- `Rune::from_utf16(std::u16string_view)` (rune.cpp lines 268-294).
Throws on an empty input, a lone high surrogate, a high surrogate not
followed by a low surrogate, or an initial low surrogate; ignores
units beyond the first character. -/
def Rune.from_utf16 (us : List Nat) : Except String Rune :=
  match us with
  | [] => .error "Empty UTF-16 string"
  | u0 :: rest =>
    if 0xD800 ≤ u0 && u0 ≤ 0xDBFF then
      match rest with
      | [] => .error "Invalid UTF-16 surrogate pair"
      | u1 :: _ =>
        if u1 < 0xDC00 || 0xDFFF < u1 then .error "Invalid UTF-16 surrogate pair"
        else .ok (Rune.ofCp (0x10000 + ((u0 &&& 0x3FF) <<< 10) + (u1 &&& 0x3FF)))
    else if 0xDC00 ≤ u0 && u0 ≤ 0xDFFF then
      .error "Invalid UTF-16 sequence: unexpected low surrogate"
    else
      .ok (Rune.ofCp u0)

/-- `Rune::to_utf8` (rune.cpp lines 154-180): standard UTF-8 encoding by
scalar range; throws (`none`) for codepoints above 0x10FFFF. -/
def Rune.to_utf8 (r : Rune) : Option (List Nat) :=
  if r.cp ≤ 0x7F then some [r.cp]
  else if r.cp ≤ 0x7FF then
    some [0xC0 ||| (r.cp >>> 6), 0x80 ||| (r.cp &&& 0x3F)]
  else if r.cp ≤ 0xFFFF then
    some [0xE0 ||| (r.cp >>> 12), 0x80 ||| ((r.cp >>> 6) &&& 0x3F), 0x80 ||| (r.cp &&& 0x3F)]
  else if r.cp ≤ 0x10FFFF then
    some [0xF0 ||| (r.cp >>> 18), 0x80 ||| ((r.cp >>> 12) &&& 0x3F),
          0x80 ||| ((r.cp >>> 6) &&& 0x3F), 0x80 ||| (r.cp &&& 0x3F)]
  else none

/-- `RuneString` (include/rune_caster/rune_sequence.hpp): a vector of
runes plus a primary-language summary.  `RuneString()` leaves
`primary_language_` default-initialized in the C++ source; we model
that state as `Code.Unknown` (the zero enumerator). -/
structure RuneString where
  runes : List Rune
  primary : Code
deriving DecidableEq

/-- Count of runes in `rs` whose language hint is `c`. -/
def langCount (rs : List Rune) (c : Code) : Nat :=
  rs.countP (fun r => r.lang == c)

/-- The primary-language computation shared by the `RuneString::from_*`
factories (rune_sequence.cpp): count the non-Unknown language hints in a
`std::map<language::Code, size_t>` and take `std::max_element`, which
returns the first maximal entry in ascending key order; if nothing was
counted the member is left at its default (modelled `Unknown`). -/
def majorityLang (rs : List Rune) : Code :=
  (allCodes.foldl
    (fun best c =>
      if c == Code.Unknown then best
      else if langCount rs c == 0 then best
      else
        match best with
        | none => some c
        | some b => if langCount rs b < langCount rs c then some c else best)
    none).getD Code.Unknown

/-- The push step of the decode loop of `RuneString::from_utf8`
(rune_sequence.cpp lines 189-200): a successfully decoded rune is
appended, a throwing decode is skipped. -/
def consIfOk (e : Except String Rune) (tail : List Rune) : List Rune :=
  match e with
  | .ok r => r :: tail
  | .error _ => tail

/-- The decode loop of `RuneString::from_utf8` (rune_sequence.cpp lines
165-203), written by case on how many bytes remain so that each branch
is first-order: the loop classifies the leading byte by the masks of
lines 171-183, skips one byte on an invalid leading byte, stops at a
truncated trailing character (`i + char_length > size`, possible only
when fewer bytes remain than the leading byte declares), and otherwise
hands exactly the declared bytes to `Rune::from_utf8` and advances by
the declared count whether or not the factory throws. -/
def utf8DecodeRunes : List Nat → List Rune
  | [] => []
  | [b] =>
    if b ≤ 0x7F then consIfOk (Rune.from_utf8 [b]) (utf8DecodeRunes [])
    else if b &&& 0xE0 == 0xC0 then []
    else if b &&& 0xF0 == 0xE0 then []
    else if b &&& 0xF8 == 0xF0 then []
    else utf8DecodeRunes []
  | [b, b1] =>
    if b ≤ 0x7F then consIfOk (Rune.from_utf8 [b]) (utf8DecodeRunes [b1])
    else if b &&& 0xE0 == 0xC0 then consIfOk (Rune.from_utf8 [b, b1]) (utf8DecodeRunes [])
    else if b &&& 0xF0 == 0xE0 then []
    else if b &&& 0xF8 == 0xF0 then []
    else utf8DecodeRunes [b1]
  | [b, b1, b2] =>
    if b ≤ 0x7F then consIfOk (Rune.from_utf8 [b]) (utf8DecodeRunes [b1, b2])
    else if b &&& 0xE0 == 0xC0 then consIfOk (Rune.from_utf8 [b, b1]) (utf8DecodeRunes [b2])
    else if b &&& 0xF0 == 0xE0 then consIfOk (Rune.from_utf8 [b, b1, b2]) (utf8DecodeRunes [])
    else if b &&& 0xF8 == 0xF0 then []
    else utf8DecodeRunes [b1, b2]
  | b :: b1 :: b2 :: b3 :: rest =>
    if b ≤ 0x7F then consIfOk (Rune.from_utf8 [b]) (utf8DecodeRunes (b1 :: b2 :: b3 :: rest))
    else if b &&& 0xE0 == 0xC0 then
      consIfOk (Rune.from_utf8 [b, b1]) (utf8DecodeRunes (b2 :: b3 :: rest))
    else if b &&& 0xF0 == 0xE0 then
      consIfOk (Rune.from_utf8 [b, b1, b2]) (utf8DecodeRunes (b3 :: rest))
    else if b &&& 0xF8 == 0xF0 then
      consIfOk (Rune.from_utf8 [b, b1, b2, b3]) (utf8DecodeRunes rest)
    else utf8DecodeRunes (b1 :: b2 :: b3 :: rest)

/-- `RuneString::from_utf8(std::string_view)` (rune_sequence.cpp lines
153-212): decode with skipping, then set the primary language to the
majority vote over the decoded runes' non-Unknown hints. -/
def RuneString.from_utf8 (bs : List Nat) : RuneString :=
  let rs := utf8DecodeRunes bs
  ⟨rs, majorityLang rs⟩

/-- `RuneString::to_utf8` (rune_sequence.cpp lines 53-62): concatenation
of each rune's UTF-8 encoding; propagates the `Rune::to_utf8` throw for
a codepoint above 0x10FFFF. -/
def RuneString.to_utf8 (s : RuneString) : Option (List Nat) :=
  (s.runes.mapM Rune.to_utf8).map List.flatten

/-- Pass 1 of `WhitespaceNormalizer::operator()`
(src/spell/core/whitespace_normalizer.cpp lines 23-43): every
classified-whitespace rune becomes a canonical space `U+0020` carrying
the source rune's language; with `collapse` set, a whitespace rune whose
predecessor was also whitespace is dropped.  `prev` is the
`prev_was_whitespace` flag, initially `false`. -/
def wsPass1 (collapse : Bool) (prev : Bool) : List Rune → List Rune
  | [] => []
  | r :: rest =>
    if unicode.is_whitespace r.cp then
      if collapse then
        if prev then wsPass1 collapse true rest
        else Rune.ofCpLang 0x20 r.lang :: wsPass1 collapse true rest
      else Rune.ofCpLang 0x20 r.lang :: wsPass1 collapse true rest
    else r :: wsPass1 collapse false rest

/-- The leading-whitespace trim of pass 2 (whitespace_normalizer.cpp
lines 51-54). -/
def trimFront (rs : List Rune) : List Rune :=
  rs.dropWhile (fun r => unicode.is_whitespace r.cp)

/-- The trailing-whitespace trim of pass 2 (whitespace_normalizer.cpp
lines 57-60). -/
def trimBack (rs : List Rune) : List Rune :=
  (rs.reverse.dropWhile (fun r => unicode.is_whitespace r.cp)).reverse

/-- `WhitespaceNormalizer::operator()` (whitespace_normalizer.cpp lines
14-73).  The result object is freshly default-constructed, so its
primary language is the default (modelled `Unknown`). -/
def whitespaceNormalizer (collapse trim : Bool) (s : RuneString) : RuneString :=
  if s.runes.isEmpty then ⟨[], .Unknown⟩
  else
    let temp := wsPass1 collapse false s.runes
    if trim then ⟨trimBack (trimFront temp), .Unknown⟩ else ⟨temp, .Unknown⟩

/-- The byte-level lowercase step of the ASCII fallback branch of
`CaseConverter::operator()` (src/spell/core/case_converter.cpp lines
63-68; the branch compiled when neither `RUNE_CASTER_HAS_UTFCPP` nor
`RUNE_CASTER_HAS_ICU` is defined, as these sources are without build
configuration). -/
def lowerByte (b : Nat) : Nat :=
  if 0x41 ≤ b && b ≤ 0x5A then b + 32 else b

/-- The byte-level uppercase step of the ASCII fallback branch
(case_converter.cpp lines 70-76). -/
def upperByte (b : Nat) : Nat :=
  if 0x61 ≤ b && b ≤ 0x7A then b - 32 else b

/-- The title-case loop of the ASCII fallback branch (case_converter.cpp
lines 77-94).  `atStart` is the `at_word_start` flag, initially `true`; only
`' '`, `'\t'` and `'\n'` reset it, and non-letter bytes leave it
unchanged. -/
def titleBytes (atStart : Bool) : List Nat → List Nat
  | [] => []
  | b :: rest =>
    if b == 0x20 || b == 0x09 || b == 0x0A then
      b :: titleBytes true rest
    else if atStart && (0x61 ≤ b && b ≤ 0x7A) then
      (b - 32) :: titleBytes false rest
    else
      (if 0x41 ≤ b && b ≤ 0x5A && !atStart then b + 32 else b) ::
      titleBytes (if (0x61 ≤ b && b ≤ 0x7A) || (0x41 ≤ b && b ≤ 0x5A) then false else atStart) rest

/-- The byte transformation the ASCII fallback of
`CaseConverter::operator()` applies to the encoded text. -/
def caseBytes (mode : CaseType) (bs : List Nat) : List Nat :=
  match mode with
  | .Lower => bs.map lowerByte
  | .Upper => bs.map upperByte
  | .Title => titleBytes true bs

/-- `CaseConverter::operator()` (case_converter.cpp lines 20-103):
return an empty sequence for an empty input, otherwise encode to UTF-8
(this call may throw, hence `Option`), convert the bytes, and re-decode
the converted bytes with `RuneString::from_utf8`. -/
def caseConverter (mode : CaseType) (s : RuneString) : Option RuneString :=
  if s.runes.isEmpty then some ⟨[], .Unknown⟩
  else (s.to_utf8).map (fun bs => RuneString.from_utf8 (caseBytes mode bs))

/-- `UnicodeNormalizer::operator()` (src/spell/core/unicode_normalizer.cpp
lines 22-72) in the fallback branch without a normalization library:
the byte text passes through unchanged and is re-decoded. -/
def unicodeNormalizer (_form : NormalizationForm) (s : RuneString) : Option RuneString :=
  if s.runes.isEmpty then some ⟨[], .Unknown⟩
  else (s.to_utf8).map (fun bs => RuneString.from_utf8 bs)

/-- All `unicode::Script` values; stands in for the key set of the
`std::unordered_map<Script, int>` in `LanguageDetector`. -/
def allScripts : List Script :=
  [.Unknown, .Latin, .Hangul, .Hiragana, .Katakana, .Han, .Arabic,
   .Cyrillic, .Greek, .Hebrew]

/-- Count of runes in `rs` whose `script()` is `sc`
(`script_counts[script]++` counts every rune, `Unknown` included;
src/spell/language/language_detector.cpp lines 39-42). -/
def scriptCount (rs : List Rune) (sc : Script) : Nat :=
  rs.countP (fun r => unicode.get_script r.cp == sc)

/-- The `std::max_element` step of
`LanguageDetector::detect_language_from_script` (language_detector.cpp
lines 45-55): among the scripts that occur at all, the first one (the
C++ iterates an `std::unordered_map` in unspecified order; we fix the
`allScripts` order, which agrees with the source whenever one script
strictly dominates) whose count no later script exceeds; `none` when no
rune was counted. -/
def scriptVoteStep (rs : List Rune) (best : Option Script) (sc : Script) : Option Script :=
  if scriptCount rs sc == 0 then best
  else
    match best with
    | none => some sc
    | some b => if scriptCount rs b < scriptCount rs sc then some sc else best

/-- The fold realizing the `std::max_element` step. -/
def mostCommonScript (rs : List Rune) : Option Script :=
  allScripts.foldl (scriptVoteStep rs) none

/-- The script-to-language switch of
`LanguageDetector::detect_language_from_script` (language_detector.cpp
lines 58-85).  The source also names a `unicode::Script::Devanagari`
case, but no such enumerator exists in unicode.hpp, and `get_script`
never returns `Arabic` or `Cyrillic`, so those arms are unreachable. -/
def mapScriptToLang : Script → Code
  | .Latin => .English
  | .Hangul => .Korean
  | .Hiragana => .Japanese
  | .Katakana => .Japanese
  | .Han => .Japanese
  | .Cyrillic => .Russian
  | .Arabic => .Arabic
  | _ => .Unknown

/-- `LanguageDetector::operator()` (language_detector.cpp lines 13-25):
copy the input and overwrite its primary-language hint with the detected
language; per-unit data is untouched. -/
def languageDetector (s : RuneString) : RuneString :=
  ⟨s.runes,
   match mostCommonScript s.runes with
   | none => .Unknown
   | some sc => mapScriptToLang sc⟩

/-- A spell as the composition engine sees it
(include/rune_caster/spell_composition.hpp): a callable with a name and
a description.  The C++ is generic over aligned input/output types; the
claims compose sequence-to-sequence spells, so the embedding fixes both
types to `RuneString`. -/
structure Spell where
  apply : RuneString → RuneString
  sname : String
  sdescr : String

/-- `compose(first, second)` building a `SpellComposition`
(spell_composition.hpp lines 44-69 and 95-105): the call behavior is
`second(first(input))`; name and description concatenate with arrow
separators. -/
def composeSpell (first second : Spell) : Spell :=
  ⟨fun x => second.apply (first.apply x),
   first.sname ++ "→" ++ second.sname,
   first.sdescr ++ " → " ++ second.sdescr⟩

/-- Spec-side: a valid Unicode scalar value, at most 0x10FFFF and not a
surrogate (spec glossary). -/
def isValidScalarB (cp : Nat) : Bool :=
  cp ≤ 0x10FFFF && !(0xD800 ≤ cp && cp ≤ 0xDFFF)

/-- Spec-side: a UTF-8 continuation byte `10xxxxxx`. -/
def utf8Cont (b : Nat) : Bool :=
  b &&& 0xC0 == 0x80

/-- Spec-side (for the refinement comparison in claim C1): the byte
list is exactly one well-formed UTF-8 encoded character per the spec's
error taxonomy — correct length for the leading byte, continuation
bytes in form, no overlong encoding, and a resulting scalar value below
0x110000 and outside the surrogate range (the RFC 3629 table). -/
def specWellFormedUtf8Char (bs : List Nat) : Bool :=
  match bs with
  | [b0] => b0 ≤ 0x7F
  | [b0, b1] => 0xC2 ≤ b0 && b0 ≤ 0xDF && utf8Cont b1
  | [b0, b1, b2] =>
    utf8Cont b1 && utf8Cont b2 &&
    ((b0 == 0xE0 && 0xA0 ≤ b1 && b1 ≤ 0xBF) ||
     (0xE1 ≤ b0 && b0 ≤ 0xEC) ||
     (b0 == 0xED && 0x80 ≤ b1 && b1 ≤ 0x9F) ||
     (0xEE ≤ b0 && b0 ≤ 0xEF))
  | [b0, b1, b2, b3] =>
    utf8Cont b1 && utf8Cont b2 && utf8Cont b3 &&
    ((b0 == 0xF0 && 0x90 ≤ b1 && b1 ≤ 0xBF) ||
     (0xF1 ≤ b0 && b0 ≤ 0xF3) ||
     (b0 == 0xF4 && 0x80 ≤ b1 && b1 ≤ 0x8F))
  | _ => false

/-- The exact acceptance condition of `Rune::from_utf8`, stated flatly:
a leading byte of a recognized class followed by enough bytes whose
required continuation positions are all `10xxxxxx`; no other check. -/
def utf8AcceptB : List Nat → Bool
  | [] => false
  | b0 :: rest =>
    if b0 ≤ 0x7F then true
    else if b0 &&& 0xE0 == 0xC0 then
      decide (1 ≤ rest.length) && (rest.take 1).all utf8Cont
    else if b0 &&& 0xF0 == 0xE0 then
      decide (2 ≤ rest.length) && (rest.take 2).all utf8Cont
    else if b0 &&& 0xF8 == 0xF0 then
      decide (3 ≤ rest.length) && (rest.take 3).all utf8Cont
    else false

/-- The exact acceptance condition of `Rune::from_utf16`, stated
flatly: nonempty, and a leading high surrogate must be followed by a
low surrogate; a leading low surrogate is rejected; anything else is
accepted. -/
def utf16AcceptB : List Nat → Bool
  | [] => false
  | u0 :: rest =>
    if 0xD800 ≤ u0 && u0 ≤ 0xDBFF then
      match rest with
      | [] => false
      | u1 :: _ => 0xDC00 ≤ u1 && u1 ≤ 0xDFFF
    else !(0xDC00 ≤ u0 && u0 ≤ 0xDFFF)

/-- The defaulted `Rune::operator==` (rune.hpp line 245): memberwise
comparison of `codepoint_`, `language_` and `phoneme_`. -/
def runeEq (a b : Rune) : Bool :=
  a.cp == b.cp && decide (a.lang = b.lang) && a.phoneme == b.phoneme

/-- Elementwise `std::vector<Rune>` equality via `Rune::operator==`. -/
def runesBeq : List Rune → List Rune → Bool
  | [], [] => true
  | a :: as, b :: bs => runeEq a b && runesBeq as bs
  | _, _ => false

/-- The defaulted `RuneString::operator==` (rune_sequence.hpp line 374):
compares the rune vector elementwise and the `primary_language_`
member. -/
def rsEq (s t : RuneString) : Bool :=
  runesBeq s.runes t.runes && decide (s.primary = t.primary)

/-- Spec-side (claim C6's words): title-casing over the scalar stream
where the word boundary is any classified-whitespace scalar; the first
non-whitespace scalar after a boundary (or at stream start) is
upper-cased and all later scalars until the next boundary are
lower-cased, non-cased scalars passing through those maps unchanged. -/
def specTitle (boundary : Bool) : List Nat → List Nat
  | [] => []
  | c :: rest =>
    if unicode.is_whitespace c then c :: specTitle true rest
    else (if boundary then upperByte c else lowerByte c) :: specTitle false rest

/-- Spec-side (claim C8's words): the most frequent non-Unknown script
among the units, if any (`allScripts` order breaks ties, which the
counterexample below does not exercise). -/
def specTopNonUnknownScript (rs : List Rune) : Option Script :=
  allScripts.foldl
    (fun best sc =>
      if sc = Script.Unknown || scriptCount rs sc == 0 then best
      else
        match best with
        | none => some sc
        | some b => if scriptCount rs b < scriptCount rs sc then some sc else best)
    none

/-- Spec-side (claim C8's words): the language the claim says the
detector attaches. -/
def specDetectByScript (rs : List Rune) : Code :=
  match specTopNonUnknownScript rs with
  | none => .Unknown
  | some sc => mapScriptToLang sc

/-- Spec-side (claim C5): no two adjacent canonical-space units. -/
def noAdjacentSpaces : List Rune → Bool
  | [] => true
  | [_] => true
  | a :: b :: rest => !(a.cp == 0x20 && b.cp == 0x20) && noAdjacentSpaces (b :: rest)

/-!
Theorems settling the claims.
-/

/-- Claim C1, counterexample: the two-byte input `C0 80` is an overlong
encoding of U+0000 — not a well-formed encoded character — yet
`Rune::from_utf8` does not raise: it returns the unit with scalar value
0.  So the factory does not raise exactly on malformed input. -/
theorem c1_counterexample :
    specWellFormedUtf8Char [0xC0, 0x80] = false ∧
    (Rune.from_utf8 [0xC0, 0x80]).toOption.map Rune.cp = some 0 := by
  decide

/-- Claim C2, counterexample: `Rune::from_utf8` decodes `ED A0 80` to
the surrogate scalar 0xD800 without failing, and the direct constructor
accepts 0xD800 and even 0x110000 unchecked, so constructed units can
violate the valid-scalar invariant. -/
theorem c2_counterexample :
    (Rune.from_utf8 [0xED, 0xA0, 0x80]).toOption.map Rune.cp = some 0xD800 ∧
    isValidScalarB 0xD800 = false ∧
    (Rune.from_utf8 [0xF7, 0xBF, 0xBF, 0xBF]).toOption.map Rune.cp = some 0x1FFFFF ∧
    isValidScalarB 0x1FFFFF = false ∧
    (Rune.ofCp 0xD800).cp = 0xD800 ∧
    (Rune.ofCp 0x110000).cp = 0x110000 := by
  decide

/-- Claim C3, counterexample: two units with the same scalar value 0x41
but different language hints are not equal under the defaulted
memberwise `operator==`, and two sequences with identical unit lists but
different `primary_language_` are not equal either — so equality is not
determined by scalar values alone. -/
theorem c3_counterexample :
    (Rune.ofCpLang 0x41 .English).cp = (Rune.ofCpLang 0x41 .French).cp ∧
    runeEq (Rune.ofCpLang 0x41 .English) (Rune.ofCpLang 0x41 .French) = false ∧
    runesBeq [Rune.ofCpLang 0x41 .English] [Rune.ofCpLang 0x41 .English] = true ∧
    rsEq ⟨[Rune.ofCpLang 0x41 .English], .English⟩
         ⟨[Rune.ofCpLang 0x41 .English], .Korean⟩ = false := by
  decide

/-- Claim C3, amended: the defaulted comparisons are full structural
equality — a unit equality compares scalar value, language hint and
phoneme, and a sequence equality compares the unit lists under that
unit equality together with the primary language. -/
theorem c3_structural_equality :
    (∀ a b : Rune, runeEq a b = true ↔ a = b) ∧
    (∀ s t : RuneString, rsEq s t = true ↔ s = t) := by
  have hr : ∀ a b : Rune, runeEq a b = true ↔ a = b := by
    intro a b
    cases a with
    | mk acp alang aph =>
      cases b with
      | mk bcp blang bph =>
        simp [runeEq, Rune.mk.injEq, and_assoc]
  have hl : ∀ xs ys : List Rune, runesBeq xs ys = true ↔ xs = ys := by
    intro xs
    induction xs with
    | nil => intro ys; cases ys <;> simp [runesBeq]
    | cons x xs ih =>
      intro ys
      cases ys with
      | nil => simp [runesBeq]
      | cons y ys => simp [runesBeq, hr, ih]
  refine ⟨hr, ?_⟩
  intro s t
  cases s with
  | mk srunes sprim =>
    cases t with
    | mk trunes tprim =>
      simp [rsEq, hl, RuneString.mk.injEq]

/-- Claim C4: whole-sequence decoding is total and skips malformed
characters: `"A\xFF B"` (bytes `41 FF 42`) decodes to exactly the two
units `A`, `B` (the invalid leading byte FF is skipped by one byte and
decoding continues, with primary language English by majority vote); a
bad continuation byte skips the full declared length (`E2 41 42`
declares 3 bytes and drops all of them); a truncated trailing character
is dropped (`41 C3` keeps only `A`). -/
theorem c4_sequence_decode_skips :
    RuneString.from_utf8 [0x41, 0xFF, 0x42] =
      ⟨[Rune.ofCp 0x41, Rune.ofCp 0x42], .English⟩ ∧
    (RuneString.from_utf8 [0x41, 0xFF, 0x42]).runes.map Rune.cp = [0x41, 0x42] ∧
    (RuneString.from_utf8 [0xE2, 0x41, 0x42]).runes = [] ∧
    (RuneString.from_utf8 [0x41, 0xC3]).runes = [Rune.ofCp 0x41] := by
  decide

/-- Claim C7: the composed spell applies the first spell then the
second (`second(first(input))`), and composition is associative in
effect: both associations of a three-spell chain agree on every
input. -/
theorem c7_compose_assoc :
    (∀ first second : Spell, ∀ x : RuneString,
      (composeSpell first second).apply x = second.apply (first.apply x)) ∧
    (∀ a b c : Spell, ∀ x : RuneString,
      (composeSpell (composeSpell a b) c).apply x =
      (composeSpell a (composeSpell b c)).apply x) :=
  ⟨fun _ _ _ => rfl, fun _ _ _ _ => rfl⟩

/-- Claim C9: the repository carries two conflicting definitions of
`Rune::detect_language`.  The rune.cpp one behaves as the claim states
(`한` U+D55C → Korean, `A` → English, `!` → Unknown), but the inline
copy in rune.hpp — whose own comment asserts it is identical — maps the
ASCII non-letter `!` (U+0021) to English, because after the CJK checks
it sends every codepoint ≤ 0x024F to English. -/
theorem c9_detect_language_conflict :
    Rune.detect_language 0xD55C = .Korean ∧
    detect_language_hpp 0xD55C = .Korean ∧
    Rune.detect_language 0x41 = .English ∧
    detect_language_hpp 0x41 = .English ∧
    Rune.detect_language 0x21 = .Unknown ∧
    detect_language_hpp 0x21 = .English ∧
    Rune.detect_language 0x21 ≠ detect_language_hpp 0x21 := by
  decide

/-- Claim C8, counterexample: on the input `"!!a"` the most frequent
non-Unknown script is Latin, so the claim predicts the primary-language
hint English; but the detector's vote counts Unknown-script units too,
Unknown wins 2-to-1, and the attached hint is Unknown. -/
theorem c8_counterexample :
    (languageDetector (RuneString.from_utf8 [0x21, 0x21, 0x61])).primary = .Unknown ∧
    specDetectByScript (RuneString.from_utf8 [0x21, 0x21, 0x61]).runes = .English ∧
    (Code.Unknown ≠ Code.English) := by
  decide

/-- Claim C6, counterexample: for the input `"3a"` the claim's
word-boundary rule (digits pass through without acting as boundaries,
subsequent scalars are lower-cased) predicts the unchanged output
`"3a"`, but the title-case conversion leaves `at_word_start` set across
the digit and produces `"3A"`. -/
theorem c6_counterexample :
    (caseConverter .Title (RuneString.from_utf8 [0x33, 0x61])).map
      (fun t => t.runes.map Rune.cp) = some [0x33, 0x41] ∧
    specTitle true [0x33, 0x61] = [0x33, 0x61] ∧
    (([0x33, 0x41] : List Nat) ≠ [0x33, 0x61]) := by
  decide

/-- Claim C1, amended: the single-character factories raise exactly on
the structural conditions — `from_utf8` on an empty input, an invalid
leading byte, fewer bytes than the leading byte declares, or an
ill-formed continuation byte (no overlong, surrogate or maximum-scalar
validation, trailing extra bytes ignored); `from_utf16` on an empty
input, an unpaired high surrogate or a leading low surrogate. -/
theorem c1_exact_raise_condition :
    (∀ bs : List Nat, (Rune.from_utf8 bs).isOk = utf8AcceptB bs) ∧
    (∀ us : List Nat, (Rune.from_utf16 us).isOk = utf16AcceptB us) := by
  constructor
  · intro bs
    rcases bs with _ | ⟨b0, _ | ⟨b1, _ | ⟨b2, _ | ⟨b3, rest⟩⟩⟩⟩ <;>
      simp only [Rune.from_utf8, utf8AcceptB, utf8Cont, List.take, List.all_cons,
        List.all_nil, List.length_nil, List.length_cons, Except.isOk, Except.toBool] <;>
      split_ifs <;> simp_all
  · intro us
    rcases us with _ | ⟨u0, _ | ⟨u1, rest⟩⟩ <;>
      simp only [Rune.from_utf16, utf16AcceptB, Except.isOk, Except.toBool] <;>
      split_ifs <;> simp_all <;> omega

/-- Claim C2, amended: only `from_utf16` guarantees the valid-scalar
invariant — every unit it returns (given 16-bit code units) has a
scalar value at most 0x10FFFF and outside the surrogate range; direct
construction and `from_utf8` perform no such validation. -/
theorem c2_from_utf16_valid_scalar (us : List Nat) (r : Rune)
    (hu : ∀ u ∈ us, u ≤ 0xFFFF) (h : Rune.from_utf16 us = .ok r) :
    isValidScalarB r.cp = true := by
  have valid_iff : ∀ cp : Nat,
      isValidScalarB cp = true ↔ (cp ≤ 0x10FFFF ∧ (cp < 0xD800 ∨ 0xDFFF < cp)) := by
    intro cp
    simp [isValidScalarB]
  cases us with
  | nil => simp [Rune.from_utf16] at h
  | cons u0 rest =>
    have hu0 : u0 ≤ 0xFFFF := hu u0 (by simp)
    simp only [Rune.from_utf16] at h
    split_ifs at h with h1 h2
    · cases rest with
      | nil => simp at h
      | cons u1 tail =>
        simp only [] at h
        split_ifs at h with h3
        injection h with h4
        subst h4
        have hlo : u0 &&& 0x3FF ≤ 0x3FF := Nat.and_le_right
        have hhi : u1 &&& 0x3FF ≤ 0x3FF := Nat.and_le_right
        simp only [Rune.ofCp, Nat.shiftLeft_eq, valid_iff]
        omega
    · injection h with h4
      subst h4
      simp only [Bool.and_eq_true, decide_eq_true_eq, not_and, not_le] at h1 h2
      simp only [Rune.ofCp, valid_iff]
      omega

/-- Witness for `c2_from_utf16_valid_scalar` at the single BMP unit
0xAC00. -/
theorem c2_witness :
    (∀ u ∈ [0xAC00], u ≤ 0xFFFF) ∧
    Rune.from_utf16 [0xAC00] = .ok (Rune.ofCp 0xAC00) ∧
    isValidScalarB (Rune.ofCp 0xAC00).cp = true :=
  ⟨by decide, by rfl,
   c2_from_utf16_valid_scalar [0xAC00] (Rune.ofCp 0xAC00) (by decide) (by rfl)⟩

/-- Every unit `Rune::from_utf8` returns is freshly built by the
one-argument constructor: its language is auto-detected from its
codepoint and its phoneme is empty. -/
theorem from_utf8_ok_fresh (bs : List Nat) (r : Rune)
    (h : Rune.from_utf8 bs = .ok r) : r = Rune.ofCp r.cp := by
  rcases bs with _ | ⟨b0, _ | ⟨b1, _ | ⟨b2, _ | ⟨b3, tail⟩⟩⟩⟩ <;>
    simp only [Rune.from_utf8] at h <;>
    first
      | (split_ifs at h <;>
          first
            | (injection h with h4; exact h4 ▸ rfl)
            | simp at h)
      | simp at h

/-- Membership through the push step: an element of `consIfOk e t` is
either the successfully decoded rune or an element of `t`. -/
theorem mem_consIfOk {e : Except String Rune} {t : List Rune} {x : Rune}
    (h : x ∈ consIfOk e t) : e = .ok x ∨ x ∈ t := by
  cases e with
  | ok r =>
    simp only [consIfOk, List.mem_cons] at h
    rcases h with rfl | h
    · exact Or.inl rfl
    · exact Or.inr h
  | error s => exact Or.inr h

/-- Every unit the sequence-level decode loop produces is freshly
constructed from its codepoint. -/
theorem utf8DecodeRunes_fresh (bs : List Nat) :
    ∀ r ∈ utf8DecodeRunes bs, r = Rune.ofCp r.cp := by
  induction bs using utf8DecodeRunes.induct <;>
    intro x hx <;>
    rw [utf8DecodeRunes.eq_def] at hx <;>
    simp only [] at hx <;>
    (try split_ifs at hx) <;>
    first
      | (rcases mem_consIfOk hx with hok | hmem
         · exact from_utf8_ok_fresh _ _ hok
         · solve_by_elim)
      | solve_by_elim
      | omega
      | simp_all

/-- A sequence rebuilt by `RuneString::from_utf8` carries only fresh
units (empty phoneme, language auto-detected from the codepoint) and a
primary language recomputed by the majority vote. -/
theorem from_utf8_rebuilt (bs : List Nat) :
    (∀ r ∈ (RuneString.from_utf8 bs).runes,
        r.phoneme = [] ∧ r.lang = Rune.detect_language r.cp) ∧
    (RuneString.from_utf8 bs).primary = majorityLang (RuneString.from_utf8 bs).runes := by
  constructor
  · intro r hr
    have h := utf8DecodeRunes_fresh bs r hr
    exact ⟨by rw [h]; rfl, by rw [h]; rfl⟩
  · rfl

/-- Claim C10: `CaseConverter` and `UnicodeNormalizer` rebuild their
result through `RuneString::from_utf8`, so every output unit has an
empty phoneme and a language hint re-derived from its codepoint alone,
and the output's primary language is the majority vote over those
re-derived hints; phonemes, forced per-unit hints and an explicitly set
primary language on the input are never carried over. -/
theorem c10_output_rebuilt :
    (∀ (mode : CaseType) (s out : RuneString), caseConverter mode s = some out →
      (∀ r ∈ out.runes, r.phoneme = [] ∧ r.lang = Rune.detect_language r.cp) ∧
      out.primary = majorityLang out.runes) ∧
    (∀ (form : NormalizationForm) (s out : RuneString), unicodeNormalizer form s = some out →
      (∀ r ∈ out.runes, r.phoneme = [] ∧ r.lang = Rune.detect_language r.cp) ∧
      out.primary = majorityLang out.runes) := by
  have hempty :
      (∀ r ∈ (⟨[], Code.Unknown⟩ : RuneString).runes,
          r.phoneme = [] ∧ r.lang = Rune.detect_language r.cp) ∧
      (⟨[], Code.Unknown⟩ : RuneString).primary =
        majorityLang (⟨[], Code.Unknown⟩ : RuneString).runes := by
    constructor
    · intro r hr
      simp at hr
    · decide
  constructor
  · intro mode s out h
    by_cases he : s.runes.isEmpty
    · simp only [caseConverter, he, if_true, Option.some.injEq] at h
      exact h ▸ hempty
    · unfold caseConverter at h
      rw [if_neg he] at h
      cases hs : s.to_utf8 with
      | none => rw [hs] at h; simp at h
      | some bs =>
        rw [hs] at h
        simp only [Option.map_some', Option.some.injEq] at h
        exact h ▸ from_utf8_rebuilt (caseBytes mode bs)
  · intro form s out h
    by_cases he : s.runes.isEmpty
    · simp only [unicodeNormalizer, he, if_true, Option.some.injEq] at h
      exact h ▸ hempty
    · unfold unicodeNormalizer at h
      rw [if_neg he] at h
      cases hs : s.to_utf8 with
      | none => rw [hs] at h; simp at h
      | some bs =>
        rw [hs] at h
        simp only [Option.map_some', Option.some.injEq] at h
        exact h ▸ from_utf8_rebuilt bs

/-- Witness for `c10_output_rebuilt`: lower-casing a one-unit sequence
whose unit carries a phoneme and a forced French hint, and whose
primary language was explicitly set to Korean, yields the rebuilt
sequence for `"a"` — empty phoneme, auto-detected English hint,
recomputed primary language. -/
theorem c10_witness :
    caseConverter .Lower ⟨[⟨0x41, Code.French, [0x78]⟩], Code.Korean⟩ =
      some (RuneString.from_utf8 [0x61]) ∧
    (RuneString.from_utf8 [0x61]).primary =
      majorityLang (RuneString.from_utf8 [0x61]).runes ∧
    (Rune.ofCp 0x61).phoneme = [] ∧
    (Rune.ofCp 0x61).lang = Rune.detect_language 0x61 := by
  have h := c10_output_rebuilt.1 CaseType.Lower
    ⟨[⟨0x41, Code.French, [0x78]⟩], Code.Korean⟩
    (RuneString.from_utf8 [0x61]) (by decide)
  exact ⟨by decide, h.2,
    (h.1 (Rune.ofCp 0x61) (by decide)).1,
    (h.1 (Rune.ofCp 0x61) (by decide)).2⟩

/-- Once the strict winner holds the accumulator, no later script
displaces it. -/
theorem scriptVote_keep (rs : List Rune) (sc : Script) (l : List Script)
    (hl : ∀ s' ∈ l, scriptCount rs s' < scriptCount rs sc) :
    l.foldl (scriptVoteStep rs) (some sc) = some sc := by
  induction l with
  | nil => rfl
  | cons s' l ih =>
    have hs' : scriptCount rs s' < scriptCount rs sc := hl s' (by simp)
    have step : scriptVoteStep rs (some sc) s' = some sc := by
      unfold scriptVoteStep
      split_ifs with h1
      · rfl
      · simp only []
        rw [if_neg (by omega)]
    rw [List.foldl_cons, step]
    exact ih (fun x hx => hl x (List.mem_cons_of_mem s' hx))

/-- The vote fold returns the script that strictly dominates every
other script's count, from any accumulator that the winner beats. -/
theorem scriptVote_wins (rs : List Rune) (sc : Script)
    (hpos : 0 < scriptCount rs sc)
    (hdom : ∀ s', s' ≠ sc → scriptCount rs s' < scriptCount rs sc) :
    ∀ (l : List Script) (acc : Option Script), sc ∈ l → l.Nodup →
      (acc = none ∨ ∃ b, acc = some b ∧ scriptCount rs b < scriptCount rs sc) →
      l.foldl (scriptVoteStep rs) acc = some sc := by
  intro l
  induction l with
  | nil => intro acc h; simp at h
  | cons s' l ih =>
    intro acc hmem hnd hacc
    rw [List.foldl_cons]
    by_cases hs : s' = sc
    · subst hs
      have step : scriptVoteStep rs acc s' = some s' := by
        unfold scriptVoteStep
        rw [if_neg (by simp; omega)]
        rcases hacc with rfl | ⟨b, rfl, hb⟩
        · rfl
        · simp only []
          rw [if_pos hb]
      rw [step]
      refine scriptVote_keep rs s' l ?_
      intro x hx
      refine hdom x ?_
      rintro rfl
      exact (List.nodup_cons.mp hnd).1 hx
    · have hmem' : sc ∈ l := by
        rcases List.mem_cons.mp hmem with h | h
        · exact absurd h.symm hs
        · exact h
      refine ih (scriptVoteStep rs acc s') hmem' (List.nodup_cons.mp hnd).2 ?_
      unfold scriptVoteStep
      split_ifs with h1
      · exact hacc
      · rcases hacc with rfl | ⟨b, rfl, hb⟩
        · exact Or.inr ⟨s', rfl, hdom s' hs⟩
        · simp only []
          split_ifs with h2
          · exact Or.inr ⟨s', rfl, hdom s' hs⟩
          · exact Or.inr ⟨b, rfl, hb⟩

/-- Claim C8, amended: the detector copies the input's units unchanged
and attaches as primary-language hint the mapping of the winning script
of a vote that counts every unit, Unknown-script units included (so a
plurality of unclassified units yields Unknown); Latin maps to English,
Hangul to Korean, Hiragana/Katakana/Han to Japanese, and every other
reachable script (only Unknown, since `get_script` never returns the
Cyrillic/Arabic cases and the switch's Devanagari arm does not even
exist in the Script enumeration) to Unknown; the empty sequence gets
Unknown. -/
theorem c8_detector_amended :
    (∀ s : RuneString, (languageDetector s).runes = s.runes) ∧
    (languageDetector ⟨[], Code.Unknown⟩).primary = Code.Unknown ∧
    (∀ (s : RuneString) (sc : Script),
      0 < scriptCount s.runes sc →
      (∀ sc', sc' ≠ sc → scriptCount s.runes sc' < scriptCount s.runes sc) →
      (languageDetector s).primary = mapScriptToLang sc) := by
  refine ⟨fun _ => rfl, by decide, ?_⟩
  intro s sc hpos hdom
  have hwin : mostCommonScript s.runes = some sc := by
    refine scriptVote_wins s.runes sc hpos hdom allScripts none ?_ (by decide) (Or.inl rfl)
    cases sc <;> simp [allScripts]
  unfold languageDetector
  rw [hwin]

/-- Witness for `c8_detector_amended` on the two-unit Latin sequence
`"ab"`, whose Latin count strictly dominates every other script. -/
theorem c8_witness :
    0 < scriptCount (RuneString.from_utf8 [0x61, 0x62]).runes .Latin ∧
    (∀ sc', sc' ≠ Script.Latin →
      scriptCount (RuneString.from_utf8 [0x61, 0x62]).runes sc' <
      scriptCount (RuneString.from_utf8 [0x61, 0x62]).runes .Latin) ∧
    (languageDetector (RuneString.from_utf8 [0x61, 0x62])).primary =
      mapScriptToLang .Latin :=
  ⟨by decide, by decide,
   (c8_detector_amended.2.2 (RuneString.from_utf8 [0x61, 0x62]) .Latin
     (by decide) (by decide))⟩

/-- Claim C6, amended: in the ASCII fallback branch these sources
compile (no external Unicode library), Title mode works on the encoded
bytes with word boundaries only at `' '`, `'\t'`, `'\n'`; the first
ASCII lowercase letter at a word start is upper-cased, upper-case
letters not at a word start are lower-cased, and non-letter bytes pass
through without consuming the word-start slot, so a letter after
leading digits or punctuation is still capitalized.  Only letter case
ever changes (the lower-casing projection of the output equals that of
the input); `"hello world"` yields `"Hello World"`, but `"3a"` yields
`"3A"` and `"a\rb"` yields `"A\rb"` (`'\r'` is not a boundary). -/
theorem c6_title_fallback :
    (∀ (st : Bool) (bs : List Nat),
      (titleBytes st bs).map lowerByte = bs.map lowerByte) ∧
    (caseConverter .Title (RuneString.from_utf8
        [0x68, 0x65, 0x6C, 0x6C, 0x6F, 0x20, 0x77, 0x6F, 0x72, 0x6C, 0x64])).map
      (fun t => t.runes.map Rune.cp) =
      some [0x48, 0x65, 0x6C, 0x6C, 0x6F, 0x20, 0x57, 0x6F, 0x72, 0x6C, 0x64] ∧
    (caseConverter .Title (RuneString.from_utf8 [0x33, 0x61])).map
      (fun t => t.runes.map Rune.cp) = some [0x33, 0x41] ∧
    (caseConverter .Title (RuneString.from_utf8 [0x61, 0x0D, 0x62])).map
      (fun t => t.runes.map Rune.cp) = some [0x41, 0x0D, 0x62] := by
  refine ⟨?_, by decide, by decide, by decide⟩
  intro st bs
  induction bs generalizing st with
  | nil => rfl
  | cons b rest ih =>
    rw [titleBytes]
    split_ifs with h1 h2 <;>
      simp only [List.map_cons, ih] <;>
      congr 1 <;>
      simp only [lowerByte] <;>
      split_ifs <;>
      simp_all <;>
      omega

/-- Unfolding of pass 1 with the collapse flag set, at a cons cell. -/
theorem wsPass1_true_cons (prev : Bool) (a : Rune) (l : List Rune) :
    wsPass1 true prev (a :: l) =
      if unicode.is_whitespace a.cp then
        (if prev then wsPass1 true true l
         else Rune.ofCpLang 0x20 a.lang :: wsPass1 true true l)
      else a :: wsPass1 true false l := by
  rw [wsPass1]
  split_ifs <;> simp_all

/-- Pass 1 only outputs canonical spaces or unchanged non-whitespace
runes: every whitespace unit in its output has codepoint U+0020. -/
theorem wsPass1_canonical :
    ∀ (l : List Rune) (prev : Bool) (r : Rune), r ∈ wsPass1 true prev l →
      unicode.is_whitespace r.cp = true → r.cp = 0x20 := by
  intro l
  induction l with
  | nil => intro prev r hr; simp [wsPass1] at hr
  | cons a l ih =>
    intro prev r hr hws
    rw [wsPass1_true_cons] at hr
    by_cases h1 : unicode.is_whitespace a.cp = true
    · rw [if_pos h1] at hr
      cases prev with
      | true =>
        rw [if_pos rfl] at hr
        exact ih true r hr hws
      | false =>
        rw [if_neg (by simp)] at hr
        rcases List.mem_cons.mp hr with rfl | hr
        · rfl
        · exact ih true r hr hws
    · rw [if_neg h1] at hr
      rcases List.mem_cons.mp hr with rfl | hr
      · exact absurd hws h1
      · exact ih false r hr hws

/-- With the collapse flag set and the previous-was-whitespace flag on,
pass 1 never starts with a whitespace rune. -/
theorem wsPass1_head_nonws :
    ∀ (l : List Rune) (x : Rune), (wsPass1 true true l).head? = some x →
      unicode.is_whitespace x.cp = false := by
  intro l
  induction l with
  | nil => intro x hx; simp [wsPass1] at hx
  | cons a l ih =>
    intro x hx
    rw [wsPass1_true_cons, if_pos rfl] at hx
    by_cases h1 : unicode.is_whitespace a.cp = true
    · rw [if_pos h1] at hx
      exact ih x hx
    · rw [if_neg h1, List.head?_cons] at hx
      injection hx with hx
      subst hx
      simp_all

/-- With the collapse flag set, pass 1 never emits two adjacent
canonical spaces. -/
theorem wsPass1_chain :
    ∀ (l : List Rune) (prev : Bool),
      List.Chain' (fun a b : Rune => ¬(a.cp = 0x20 ∧ b.cp = 0x20))
        (wsPass1 true prev l) := by
  intro l
  induction l with
  | nil => intro prev; rw [wsPass1]; exact List.chain'_nil
  | cons a l ih =>
    intro prev
    rw [wsPass1_true_cons]
    by_cases h1 : unicode.is_whitespace a.cp = true
    · rw [if_pos h1]
      cases prev with
      | true => rw [if_pos rfl]; exact ih true
      | false =>
        rw [if_neg (by simp), List.chain'_cons']
        refine ⟨?_, ih true⟩
        intro b hb hc
        have hbn := wsPass1_head_nonws l b hb
        rw [hc.2] at hbn
        simp [unicode.is_whitespace] at hbn
    · rw [if_neg h1, List.chain'_cons']
      refine ⟨?_, ih false⟩
      intro b hb hc
      rw [hc.1] at h1
      simp [unicode.is_whitespace] at h1

/-- The head surviving a `dropWhile` fails the dropped predicate. -/
theorem head_dropWhile_false (p : Rune → Bool) :
    ∀ (l : List Rune) (x : Rune), (l.dropWhile p).head? = some x → p x = false := by
  intro l
  induction l with
  | nil => intro x hx; simp at hx
  | cons a l ih =>
    intro x hx
    rw [List.dropWhile_cons] at hx
    split_ifs at hx with h1
    · exact ih x hx
    · rw [List.head?_cons] at hx
      injection hx with hx
      subst hx
      simp_all

/-- `Chain'` survives a `dropWhile`. -/
theorem chain_dropWhile {R : Rune → Rune → Prop} (p : Rune → Bool) :
    ∀ l : List Rune, List.Chain' R l → List.Chain' R (l.dropWhile p) := by
  intro l
  induction l with
  | nil => intro h; simp
  | cons a l ih =>
    intro h
    rw [List.dropWhile_cons]
    split_ifs with h1
    · exact ih h.tail
    · exact h

/-- The back trim keeps the head of its input. -/
theorem trimBack_head (l : List Rune) (x : Rune)
    (hx : (trimBack l).head? = some x) : l.head? = some x := by
  have hpre : trimBack l <+: l := by
    have hsuf := List.dropWhile_suffix (l := l.reverse)
      (p := fun r => unicode.is_whitespace r.cp)
    have h2 := List.reverse_prefix.mpr hsuf
    rw [List.reverse_reverse] at h2
    exact h2
  obtain ⟨t, ht⟩ := hpre
  cases hb : trimBack l with
  | nil => rw [hb] at hx; simp at hx
  | cons y ys =>
    rw [hb] at hx ht
    rw [List.head?_cons] at hx
    rw [← ht, List.cons_append, List.head?_cons]
    exact hx

/-- The last element surviving the back trim is not whitespace. -/
theorem trimBack_getLast_nonws (l : List Rune) (x : Rune)
    (hx : (trimBack l).getLast? = some x) : unicode.is_whitespace x.cp = false := by
  unfold trimBack at hx
  rw [List.getLast?_reverse] at hx
  exact head_dropWhile_false _ _ x hx

/-- Membership in the back trim implies membership in the input. -/
theorem mem_trimBack {l : List Rune} {r : Rune} (h : r ∈ trimBack l) : r ∈ l := by
  unfold trimBack at h
  rw [List.mem_reverse] at h
  exact List.mem_reverse.mp ((List.dropWhile_suffix _).sublist.subset h)

/-- Claim C5: with collapse and trim both set, the whitespace
normalizer's output has all whitespace canonicalized to U+0020, no two
adjacent canonical-space units, and no leading or trailing
canonical-space unit. -/
theorem c5_whitespace_collapse_trim (s : RuneString) :
    ((whitespaceNormalizer true true s).runes.all
        (fun r => !unicode.is_whitespace r.cp || r.cp == 0x20)) = true ∧
    List.Chain' (fun a b : Rune => ¬(a.cp = 0x20 ∧ b.cp = 0x20))
      (whitespaceNormalizer true true s).runes ∧
    ((whitespaceNormalizer true true s).runes.head?.all
        (fun r => r.cp != 0x20)) = true ∧
    ((whitespaceNormalizer true true s).runes.getLast?.all
        (fun r => r.cp != 0x20)) = true := by
  unfold whitespaceNormalizer
  by_cases he : s.runes.isEmpty
  · rw [if_pos he]
    refine ⟨rfl, List.chain'_nil, rfl, rfl⟩
  · rw [if_neg he, if_pos rfl]
    simp only []
    refine ⟨?_, ?_, ?_, ?_⟩
    · rw [List.all_eq_true]
      intro r hr
      have hmem : r ∈ wsPass1 true false s.runes := by
        have h1 := mem_trimBack hr
        exact (List.dropWhile_suffix _).sublist.subset h1
      by_cases hws : unicode.is_whitespace r.cp = true
      · have := wsPass1_canonical s.runes false r hmem hws
        simp [this]
      · simp_all
    · have hrev : ∀ l' : List Rune,
          List.Chain' (fun a b : Rune => ¬(a.cp = 0x20 ∧ b.cp = 0x20)) l' →
          List.Chain' (fun a b : Rune => ¬(a.cp = 0x20 ∧ b.cp = 0x20)) l'.reverse :=
        fun l' h => List.chain'_reverse.mpr (h.imp (fun a b hab hc => hab ⟨hc.2, hc.1⟩))
      have h1 : List.Chain' (fun a b : Rune => ¬(a.cp = 0x20 ∧ b.cp = 0x20))
          (trimFront (wsPass1 true false s.runes)) :=
        chain_dropWhile _ _ (wsPass1_chain s.runes false)
      have h3 := chain_dropWhile (fun r => unicode.is_whitespace r.cp) _ (hrev _ h1)
      exact hrev _ h3
    · cases hh : (trimBack (trimFront (wsPass1 true false s.runes))).head? with
      | none => simp [hh]
      | some x =>
        have hy := trimBack_head _ _ hh
        have hnw := head_dropWhile_false _ _ x hy
        simp only [hh, Option.all_some]
        simp [unicode.is_whitespace] at hnw
        simp [hnw.1]
    · cases hh : (trimBack (trimFront (wsPass1 true false s.runes))).getLast? with
      | none => simp [hh]
      | some x =>
        have hnw := trimBack_getLast_nonws _ x hh
        simp only [hh, Option.all_some]
        simp [unicode.is_whitespace] at hnw
        simp [hnw.1]

end RuneCaster
